import Mathlib

/-!
Verification development for the benchmark evaluation engine of
`scripts/evaluate_results_solution.py` (AI-powered FAQ repository).

Python floats are modelled as rationals (`ℚ`); `round(x, n)` is modelled by
round-half-to-even at `n` decimal places. Unicode lowercasing / NFD
decomposition is modelled at the character level for the ASCII range plus the
French accented letters that occur in the repository's data and patterns;
all other characters are left fixed by the model.
-/

namespace FaqEval

/-- Round-half-to-even of a rational to an integer (Python `round` tie rule). -/
def rhe (x : ℚ) : ℤ :=
  let f := ⌊x⌋
  let r := x - f
  if r < 1/2 then f
  else if r > 1/2 then f + 1
  else if f % 2 = 0 then f else f + 1

/-- Python `round(x, 3)`. -/
def round3 (x : ℚ) : ℚ := (rhe (x * 1000) : ℚ) / 1000

/-- Python `round(x, 2)`. -/
def round2 (x : ℚ) : ℚ := (rhe (x * 100) : ℚ) / 100

/-! ## Character-level model of the text pipeline -/

/-- Whitespace characters (model of `\s` / `str.split()` separators). -/
def isSpaceCh (c : Char) : Bool :=
  c = ' ' || c = '\t' || c = '\n' || c = '\r' || c = Char.ofNat 11 || c = Char.ofNat 12

/-- Model of the Unicode `Mn` (nonspacing combining mark) category, restricted
to the Combining Diacritical Marks block, which is where the decompositions of
the modelled accented letters live. -/
def isMn (c : Char) : Bool := 0x300 ≤ c.toNat && c.toNat ≤ 0x36F

/-- Combining grave accent. -/
def cGrave : Char := Char.ofNat 0x300
/-- Combining acute accent. -/
def cAcute : Char := Char.ofNat 0x301
/-- Combining circumflex accent. -/
def cCirc : Char := Char.ofNat 0x302
/-- Combining diaeresis. -/
def cDia : Char := Char.ofNat 0x308
/-- Combining cedilla. -/
def cCedil : Char := Char.ofNat 0x327

/-- Lowercasing table: ASCII letters plus the modelled French accented
capitals. -/
def lowTable : List (Char × Char) :=
  [('A', 'a'), ('B', 'b'), ('C', 'c'), ('D', 'd'), ('E', 'e'), ('F', 'f'),
   ('G', 'g'), ('H', 'h'), ('I', 'i'), ('J', 'j'), ('K', 'k'), ('L', 'l'),
   ('M', 'm'), ('N', 'n'), ('O', 'o'), ('P', 'p'), ('Q', 'q'), ('R', 'r'),
   ('S', 's'), ('T', 't'), ('U', 'u'), ('V', 'v'), ('W', 'w'), ('X', 'x'),
   ('Y', 'y'), ('Z', 'z'),
   ('À', 'à'), ('Â', 'â'), ('Ç', 'ç'), ('É', 'é'), ('È', 'è'), ('Ê', 'ê'),
   ('Ë', 'ë'), ('Î', 'î'), ('Ï', 'ï'), ('Ô', 'ô'), ('Ù', 'ù'), ('Û', 'û'),
   ('Ü', 'ü')]

/-- Model of `str.lower` at the character level; characters outside the table
are fixed. -/
def lowerChar (c : Char) : Char :=
  match lowTable.find? (fun p => p.1 == c) with
  | some p => p.2
  | none => c

/-- Decomposition table for `unicodedata.normalize('NFD', ·)` restricted to
the modelled accented letters. -/
def nfdTable : List (Char × List Char) :=
  [('à', ['a', cGrave]), ('â', ['a', cCirc]), ('ç', ['c', cCedil]),
   ('é', ['e', cAcute]), ('è', ['e', cGrave]), ('ê', ['e', cCirc]),
   ('ë', ['e', cDia]), ('î', ['i', cCirc]), ('ï', ['i', cDia]),
   ('ô', ['o', cCirc]), ('ù', ['u', cGrave]), ('û', ['u', cCirc]),
   ('ü', ['u', cDia])]

/-- Model of NFD decomposition at the character level; characters outside the
table decompose to themselves. -/
def nfdChar (c : Char) : List Char :=
  match nfdTable.find? (fun p => p.1 == c) with
  | some p => p.2
  | none => [c]

/-- Model of the `\w` character class on the post-decomposition alphabet. -/
def isWordChar (c : Char) : Bool := c.isAlphanum || c = '_'

/-- One character of `re.sub(r'[^\w\s]', ' ', text)`. -/
def subChar (c : Char) : Char :=
  if isWordChar c || isSpaceCh c then c else ' '

/-- Characters changed by `lowerChar` (the keys of its table). -/
def lowKeys : List Char := lowTable.map Prod.fst

/-- Characters with a nontrivial decomposition (the keys of `nfdChar`). -/
def nfdKeys : List Char := nfdTable.map Prod.fst

theorem find_none_of_not_mem_keys {β : Type} (t : List (Char × β)) (c : Char)
    (h : c ∉ t.map Prod.fst) : t.find? (fun p => p.1 == c) = none := by
  induction t with
  | nil => rfl
  | cons p t ih =>
    simp only [List.map_cons, List.mem_cons] at h
    push_neg at h
    have hb : (p.1 == c) = false := by
      rw [beq_eq_false_iff_ne]
      exact fun hh => h.1 hh.symm
    simp [List.find?, hb, ih h.2]

theorem lowerChar_eq_of_not_mem (c : Char) (h : c ∉ lowKeys) : lowerChar c = c := by
  unfold lowerChar
  rw [find_none_of_not_mem_keys lowTable c h]

theorem nfdChar_eq_of_not_mem (c : Char) (h : c ∉ nfdKeys) : nfdChar c = [c] := by
  unfold nfdChar
  rw [find_none_of_not_mem_keys nfdTable c h]

theorem good_of_mem_lowKeys :
    ∀ c ∈ lowKeys, ∀ e ∈ nfdChar (lowerChar c), isMn e = false →
      lowerChar e = e ∧ nfdChar e = [e] := by decide

theorem good_of_mem_nfdKeys :
    ∀ c ∈ nfdKeys, ∀ e ∈ nfdChar c, isMn e = false →
      lowerChar e = e ∧ nfdChar e = [e] := by decide

/-- Every non-mark character produced by lowering-then-decomposing is a fixed
point of both lowering and decomposition. -/
theorem charGood (c : Char) :
    ∀ e ∈ nfdChar (lowerChar c), isMn e = false →
      lowerChar e = e ∧ nfdChar e = [e] := by
  by_cases hl : c ∈ lowKeys
  · exact good_of_mem_lowKeys c hl
  · rw [lowerChar_eq_of_not_mem c hl]
    by_cases hn : c ∈ nfdKeys
    · exact good_of_mem_nfdKeys c hn
    · rw [nfdChar_eq_of_not_mem c hn]
      intro e he _
      have : e = c := by simpa using he
      subst this
      exact ⟨lowerChar_eq_of_not_mem e hl, nfdChar_eq_of_not_mem e hn⟩

/-! ## Whitespace splitting and normalization (`normalize_text`) -/

theorem length_dropWhile_le' (p : Char → Bool) (l : List Char) :
    (l.dropWhile p).length ≤ l.length := by
  induction l with
  | nil => simp [List.dropWhile]
  | cons c t ih =>
    by_cases h : p c
    · rw [List.dropWhile_cons_of_pos h]
      exact Nat.le_succ_of_le ih
    · rw [List.dropWhile_cons_of_neg h]

/-- Fuelled body of `words` (fuel keeps the recursion structural, so that the
kernel can evaluate it; `words` always supplies enough fuel). -/
def wordsAux : ℕ → List Char → List (List Char)
  | 0, _ => []
  | _, [] => []
  | fuel + 1, c :: t =>
    if isSpaceCh c then wordsAux fuel t
    else (c :: t.takeWhile (fun d => !isSpaceCh d)) ::
      wordsAux fuel (t.dropWhile (fun d => !isSpaceCh d))

/-- Model of Python `text.split()`: the maximal whitespace-free chunks. -/
def words (l : List Char) : List (List Char) := wordsAux l.length l

theorem wordsAux_congr (f1 : ℕ) : ∀ (f2 : ℕ) (l : List Char),
    l.length ≤ f1 → l.length ≤ f2 → wordsAux f1 l = wordsAux f2 l := by
  induction f1 with
  | zero =>
    intro f2 l h1 _
    have : l = [] := List.length_eq_zero.mp (Nat.le_zero.mp h1)
    subst this
    cases f2 <;> rfl
  | succ f1 ih =>
    intro f2 l h1 h2
    cases l with
    | nil => cases f2 <;> rfl
    | cons c t =>
      cases f2 with
      | zero => exact absurd h2 (by simp)
      | succ f2 =>
        simp only [List.length_cons, Nat.succ_le_succ_iff] at h1 h2
        by_cases hsp : isSpaceCh c
        · rw [show wordsAux (f1 + 1) (c :: t) = wordsAux f1 t by
            simp [wordsAux, hsp],
            show wordsAux (f2 + 1) (c :: t) = wordsAux f2 t by
            simp [wordsAux, hsp]]
          exact ih f2 t h1 h2
        · rw [Bool.not_eq_true] at hsp
          rw [show wordsAux (f1 + 1) (c :: t) =
              (c :: t.takeWhile (fun d => !isSpaceCh d)) ::
              wordsAux f1 (t.dropWhile (fun d => !isSpaceCh d)) by
            simp [wordsAux, hsp],
            show wordsAux (f2 + 1) (c :: t) =
              (c :: t.takeWhile (fun d => !isSpaceCh d)) ::
              wordsAux f2 (t.dropWhile (fun d => !isSpaceCh d)) by
            simp [wordsAux, hsp]]
          have hd := length_dropWhile_le' (fun d => !isSpaceCh d) t
          rw [ih f2 (t.dropWhile (fun d => !isSpaceCh d)) (le_trans hd h1)
            (le_trans hd h2)]

theorem words_nil : words [] = [] := rfl

theorem words_cons_of_space (c : Char) (t : List Char)
    (h : isSpaceCh c = true) : words (c :: t) = words t := by
  unfold words
  simp only [List.length_cons]
  simp [wordsAux, h]

theorem words_cons_of_nonspace (c : Char) (t : List Char)
    (h : isSpaceCh c = false) :
    words (c :: t) = (c :: t.takeWhile (fun d => !isSpaceCh d)) ::
      words (t.dropWhile (fun d => !isSpaceCh d)) := by
  unfold words
  simp only [List.length_cons]
  rw [show wordsAux (t.length + 1) (c :: t) =
      (c :: t.takeWhile (fun d => !isSpaceCh d)) ::
      wordsAux t.length (t.dropWhile (fun d => !isSpaceCh d)) by
    simp [wordsAux, h]]
  rw [wordsAux_congr t.length _ _
    (length_dropWhile_le' (fun d => !isSpaceCh d) t) (le_refl _)]

/-- Model of Python `' '.join(ws)`. -/
def joinWords : List (List Char) → List Char
  | [] => []
  | [w] => w
  | w :: ws => w ++ ' ' :: joinWords ws

theorem joinWords_nil : joinWords [] = [] := rfl

theorem joinWords_single (w : List Char) : joinWords [w] = w := rfl

theorem joinWords_cons (w w' : List Char) (ws : List (List Char)) :
    joinWords (w :: w' :: ws) = w ++ ' ' :: joinWords (w' :: ws) := rfl

/-- Model of `' '.join(text.split())`. -/
def collapseWs (l : List Char) : List Char := joinWords (words l)

/-- Character-list body of `normalize_text`: lowercase, NFD-decompose, drop
combining marks, replace non-word non-space characters by spaces, collapse
whitespace. -/
def normList (l : List Char) : List Char :=
  collapseWs ((((l.map lowerChar).flatMap nfdChar).filter
    (fun d => !isMn d)).map subChar)

/-- Model of `normalize_text` from `evaluate_results_solution.py`. -/
def normalize_text (s : String) : String := String.mk (normList s.data)

theorem words_chars (l : List Char) :
    ∀ w ∈ words l, w ≠ [] ∧ ∀ c ∈ w, isSpaceCh c = false ∧ c ∈ l := by
  suffices h : ∀ (fuel : ℕ) (l : List Char), ∀ w ∈ wordsAux fuel l,
      w ≠ [] ∧ ∀ c ∈ w, isSpaceCh c = false ∧ c ∈ l from h l.length l
  intro fuel
  induction fuel with
  | zero => intro l w hw; simp [wordsAux] at hw
  | succ fuel ih =>
    intro l w hw
    cases l with
    | nil => simp [wordsAux] at hw
    | cons c t =>
      by_cases hsp : isSpaceCh c
      · rw [wordsAux, if_pos hsp] at hw
        obtain ⟨hne, hch⟩ := ih t w hw
        exact ⟨hne, fun d hd =>
          ⟨(hch d hd).1, List.mem_cons_of_mem c (hch d hd).2⟩⟩
      · rw [wordsAux, if_neg hsp] at hw
        rcases List.mem_cons.mp hw with hw | hw
        · subst hw
          refine ⟨by simp, fun d hd => ?_⟩
          rcases List.mem_cons.mp hd with hd | hd
          · subst hd
            exact ⟨by simpa using hsp, List.mem_cons_self _ _⟩
          · have hp := List.mem_takeWhile_imp hd
            refine ⟨by simpa using hp, List.mem_cons_of_mem c ?_⟩
            exact (List.takeWhile_sublist _).mem hd
        · obtain ⟨hne, hch⟩ := ih _ w hw
          refine ⟨hne, fun d hd =>
            ⟨(hch d hd).1, List.mem_cons_of_mem c ?_⟩⟩
          exact (List.dropWhile_sublist _).mem (hch d hd).2

theorem takeWhile_append_stop (p : Char → Bool) (t r : List Char) (s : Char)
    (ht : ∀ c ∈ t, p c = true) (hs : p s = false) :
    (t ++ s :: r).takeWhile p = t := by
  induction t with
  | nil => simp [List.takeWhile, hs]
  | cons c t ih =>
    have hc : p c = true := ht c (List.mem_cons_self c t)
    simp only [List.cons_append, List.takeWhile_cons, hc, if_true]
    rw [ih (fun d hd => ht d (List.mem_cons_of_mem c hd))]

theorem dropWhile_append_stop (p : Char → Bool) (t r : List Char) (s : Char)
    (ht : ∀ c ∈ t, p c = true) (hs : p s = false) :
    (t ++ s :: r).dropWhile p = s :: r := by
  induction t with
  | nil => simp [List.dropWhile, hs]
  | cons c t ih =>
    have hc : p c = true := ht c (List.mem_cons_self c t)
    rw [List.cons_append, List.dropWhile_cons_of_pos hc]
    exact ih (fun d hd => ht d (List.mem_cons_of_mem c hd))

theorem words_all_nonspace (w : List Char) (hne : w ≠ [])
    (hns : ∀ c ∈ w, isSpaceCh c = false) : words w = [w] := by
  cases w with
  | nil => exact absurd rfl hne
  | cons c t =>
    have hc : isSpaceCh c = false := hns c (List.mem_cons_self c t)
    rw [words_cons_of_nonspace c t hc]
    have ht : t.takeWhile (fun d => !isSpaceCh d) = t :=
      List.takeWhile_eq_self_iff.mpr
        (fun d hd => by simp [hns d (List.mem_cons_of_mem c hd)])
    have hd : t.dropWhile (fun d => !isSpaceCh d) = [] := by
      rw [List.dropWhile_eq_nil_iff]
      intro d hd
      simp [hns d (List.mem_cons_of_mem c hd)]
    rw [ht, hd, words_nil]

theorem words_append_space (w r : List Char) (hne : w ≠ [])
    (hns : ∀ c ∈ w, isSpaceCh c = false) :
    words (w ++ ' ' :: r) = w :: words r := by
  cases w with
  | nil => exact absurd rfl hne
  | cons c t =>
    have hc : isSpaceCh c = false := hns c (List.mem_cons_self c t)
    rw [List.cons_append, words_cons_of_nonspace c _ hc]
    have ht : (t ++ ' ' :: r).takeWhile (fun d => !isSpaceCh d) = t :=
      takeWhile_append_stop _ t r ' '
        (fun d hd => by simp [hns d (List.mem_cons_of_mem c hd)]) (by decide)
    have hd : (t ++ ' ' :: r).dropWhile (fun d => !isSpaceCh d) = ' ' :: r :=
      dropWhile_append_stop _ t r ' '
        (fun d hd => by simp [hns d (List.mem_cons_of_mem c hd)]) (by decide)
    rw [ht, hd, words_cons_of_space ' ' r (by decide)]

theorem words_joinWords (ws : List (List Char))
    (h : ∀ w ∈ ws, w ≠ [] ∧ ∀ c ∈ w, isSpaceCh c = false) :
    words (joinWords ws) = ws := by
  induction ws with
  | nil => rfl
  | cons w ws ih =>
    cases ws with
    | nil =>
      have hw := h w (List.mem_cons_self w [])
      rw [joinWords_single]
      exact words_all_nonspace w hw.1 hw.2
    | cons w' ws' =>
      have hw := h w (List.mem_cons_self w _)
      rw [joinWords_cons, words_append_space w _ hw.1 hw.2,
        ih (fun v hv => h v (List.mem_cons_of_mem w hv))]

theorem mem_joinWords {d : Char} {ws : List (List Char)}
    (hd : d ∈ joinWords ws) : d = ' ' ∨ ∃ w ∈ ws, d ∈ w := by
  induction ws with
  | nil => simp [joinWords_nil] at hd
  | cons w ws ih =>
    cases ws with
    | nil =>
      rw [joinWords_single] at hd
      exact Or.inr ⟨w, List.mem_cons_self w _, hd⟩
    | cons w' ws' =>
      rw [joinWords_cons] at hd
      rcases List.mem_append.mp hd with hd | hd
      · exact Or.inr ⟨w, List.mem_cons_self w _, hd⟩
      · rcases List.mem_cons.mp hd with hd | hd
        · exact Or.inl hd
        · rcases ih hd with hd | ⟨v, hv, hdv⟩
          · exact Or.inl hd
          · exact Or.inr ⟨v, List.mem_cons_of_mem w hv, hdv⟩

/-- Characters that the normalization pipeline can emit: fixed points of
lowering and decomposition, not combining marks, and word or space
characters. -/
def goodOut (d : Char) : Prop :=
  lowerChar d = d ∧ nfdChar d = [d] ∧ isMn d = false ∧
    (isWordChar d || isSpaceCh d) = true

instance (d : Char) : Decidable (goodOut d) := by
  unfold goodOut
  infer_instance

theorem goodOut_space : goodOut ' ' := by decide

theorem stage_chars (l : List Char) :
    ∀ d ∈ (((l.map lowerChar).flatMap nfdChar).filter
      (fun d => !isMn d)).map subChar, goodOut d := by
  intro d hd
  obtain ⟨e, he, rfl⟩ := List.mem_map.mp hd
  have hef := List.mem_filter.mp he
  have hmn : isMn e = false := by simpa using hef.2
  obtain ⟨c, hc, hce⟩ := List.mem_flatMap.mp hef.1
  obtain ⟨c₀, _, rfl⟩ := List.mem_map.mp hc
  obtain ⟨hlow, hnfd⟩ := charGood c₀ e hce hmn
  by_cases hw : (isWordChar e || isSpaceCh e) = true
  · rw [subChar, if_pos hw]
    exact ⟨hlow, hnfd, hmn, hw⟩
  · rw [subChar, if_neg hw]
    exact goodOut_space

theorem normList_chars (l : List Char) : ∀ d ∈ normList l, goodOut d := by
  intro d hd
  rcases mem_joinWords hd with hd | ⟨w, hw, hdw⟩
  · subst hd
    exact goodOut_space
  · have := (words_chars _ w hw).2 d hdw
    exact stage_chars l d this.2

theorem map_id_of {α : Type} (f : α → α) (l : List α)
    (h : ∀ a ∈ l, f a = a) : l.map f = l := by
  induction l with
  | nil => rfl
  | cons a t ih =>
    rw [List.map_cons, h a (List.mem_cons_self a t),
      ih (fun b hb => h b (List.mem_cons_of_mem a hb))]

theorem flatMap_singleton_of {α : Type} (g : α → List α) (l : List α)
    (h : ∀ a ∈ l, g a = [a]) : l.flatMap g = l := by
  induction l with
  | nil => rfl
  | cons a t ih =>
    rw [List.flatMap_cons, h a (List.mem_cons_self a t),
      ih (fun b hb => h b (List.mem_cons_of_mem a hb))]
    rfl

theorem filter_true_of {α : Type} (p : α → Bool) (l : List α)
    (h : ∀ a ∈ l, p a = true) : l.filter p = l := by
  induction l with
  | nil => rfl
  | cons a t ih =>
    rw [List.filter_cons_of_pos (h a (List.mem_cons_self a t)),
      ih (fun b hb => h b (List.mem_cons_of_mem a hb))]

theorem collapseWs_normList (l : List Char) :
    collapseWs (normList l) = normList l := by
  unfold normList collapseWs
  rw [words_joinWords]
  intro w hw
  have h := words_chars _ w hw
  exact ⟨h.1, fun c hc => (h.2 c hc).1⟩

theorem normList_idem (l : List Char) : normList (normList l) = normList l := by
  conv_lhs => rw [normList]
  have hg := normList_chars l
  rw [map_id_of lowerChar _ (fun d hd => (hg d hd).1),
    flatMap_singleton_of nfdChar _ (fun d hd => (hg d hd).2.1),
    filter_true_of _ _ (fun d hd => by simp [(hg d hd).2.2.1]),
    map_id_of subChar _ (fun d hd => by rw [subChar, if_pos (hg d hd).2.2.2]),
    collapseWs_normList]

/-! ## Substring search and the ignorance detector -/

/-- Apostrophe character (U+0027). -/
def apoc : Char := Char.ofNat 39

/-- Apostrophe as a one-character string. -/
def aposS : String := String.mk [apoc]

/-- Model of Python `needle in hay` on character lists. -/
def containsSub (needle : List Char) : List Char → Bool
  | [] => needle.isEmpty
  | c :: t => needle.isPrefixOf (c :: t) || containsSub needle t

/-- Any of the literal needles occurs in the haystack. -/
def anyContains (hay : List Char) (needles : List String) : Bool :=
  needles.any (fun n => containsSub n.data hay)

/-- Helper for a `.*` gap: some needle occurs in `rest` before the next
newline (Python `.` does not match `\n`). -/
def dotstarTail (m2s : List (List Char)) (rest : List Char) : Bool :=
  m2s.any (fun m2 => containsSub m2 (rest.takeWhile (fun c => !(c == '\n'))))

/-- Model of `re.search(r'(m1a|m1b).*(m2a|m2b)', text)` viewed as a Boolean:
an occurrence of some first alternative followed, on the same line, by an
occurrence of some second alternative. -/
def dotstarMatch (m1s m2s : List (List Char)) : List Char → Bool
  | [] => false
  | c :: t =>
    m1s.any (fun m1 =>
      m1.isPrefixOf (c :: t) && dotstarTail m2s ((c :: t).drop m1.length))
    || dotstarMatch m1s m2s t

/-- Expansion of `je ne (sais|peux) pas`. -/
def ignoranceLits1 : List String := ["je ne sais pas", "je ne peux pas"]

/-- Expansion of `je n'ai pas (d'information|cette information)`. -/
def ignoranceLits2 : List String :=
  ["je n" ++ aposS ++ "ai pas d" ++ aposS ++ "information",
   "je n" ++ aposS ++ "ai pas cette information"]

/-- Expansion of `(cette|votre) question (ne concerne pas|sort|dépasse)`. -/
def ignoranceLits3 : List String :=
  ["cette question ne concerne pas", "cette question sort",
   "cette question dépasse", "votre question ne concerne pas",
   "votre question sort", "votre question dépasse"]

/-- Expansion of `hors (de mon|du) (domaine|périmètre|champ)`. -/
def ignoranceLits4 : List String :=
  ["hors de mon domaine", "hors de mon périmètre", "hors de mon champ",
   "hors du domaine", "hors du périmètre", "hors du champ"]

/-- Expansion of `pas en mesure de (répondre|vous aider)`. -/
def ignoranceLits5 : List String :=
  ["pas en mesure de répondre", "pas en mesure de vous aider"]

/-- Expansion of `ne (dispose|possède) pas (d'information|de données)`. -/
def ignoranceLits7 : List String :=
  ["ne dispose pas d" ++ aposS ++ "information", "ne dispose pas de données",
   "ne possède pas d" ++ aposS ++ "information", "ne possède pas de données"]

/-- Expansion of `aucune information (disponible|trouvée)`. -/
def ignoranceLits9 : List String :=
  ["aucune information disponible", "aucune information trouvée"]

/-- Model of `BenchmarkEvaluator._detect_ignorance`: lowercases the answer and
tests the fixed `IGNORANCE_PATTERNS` list (patterns 6 and 8 carry a `.*`
gap; note pattern 8 looks for a literal uppercase `FAQ`, which cannot occur
in the lowercased text). -/
def detect_ignorance (answer : String) : Bool :=
  let low := answer.data.map lowerChar
  anyContains low ignoranceLits1
  || anyContains low ignoranceLits2
  || anyContains low ignoranceLits3
  || anyContains low ignoranceLits4
  || anyContains low ignoranceLits5
  || dotstarMatch ["désolé".data, "malheureusement".data]
       ["pas".data, "impossible".data] low
  || anyContains low ignoranceLits7
  || dotstarMatch ["FAQ".data]
       ["ne couvre pas".data, "ne contient pas".data, "ne traite pas".data] low
  || anyContains low ignoranceLits9

/-! ## Criterion scorers -/

/-- Detail payload of the accuracy scorer. -/
inductive ExactitudeDetails
  | noKeywords (message : String)
  | counts (keywords_found keywords_missing : List String)
      (total_expected total_found : ℕ)
deriving DecidableEq

/-- The `keywords_found` list of an accuracy detail payload. -/
def ExactitudeDetails.foundList : ExactitudeDetails → List String
  | .noKeywords _ => []
  | .counts f _ _ _ => f

/-- Model of `BenchmarkEvaluator.evaluate_exactitude`. -/
def evaluate_exactitude (answer : String) (expected_keywords : List String) :
    ℚ × ExactitudeDetails :=
  if expected_keywords.isEmpty then
    (1.0, .noKeywords "Pas de mots-clés à vérifier")
  else
    let normalized_answer := normalize_text answer
    let found_keywords := expected_keywords.filter
      (fun k => containsSub (normalize_text k).data normalized_answer.data)
    let missing_keywords := expected_keywords.filter
      (fun k => !containsSub (normalize_text k).data normalized_answer.data)
    let score : ℚ := (found_keywords.length : ℚ) / (expected_keywords.length : ℚ)
    (score, .counts found_keywords missing_keywords
      expected_keywords.length found_keywords.length)

/-- Detail payload of the relevance scorer. -/
inductive PertinenceDetails
  | reason (reason : String)
  | overlap (overlap_words : List String) (overlap_ratio : ℚ)
      (answer_length : ℕ)
deriving DecidableEq

/-- The stop-word list of `evaluate_pertinence`. -/
def stop_words : List String :=
  ["le", "la", "les", "un", "une", "de", "du", "des", "et", "ou", "a",
   "est", "sont", "pour", "dans", "en", "au", "aux", "ce", "cette", "ces",
   "mon", "ma", "mes", "son", "sa", "ses", "comment", "que", "qui", "quoi"]

/-- Length of Python `s.strip()`. -/
def stripLen (s : String) : ℕ :=
  (((s.data.dropWhile isSpaceCh).reverse.dropWhile isSpaceCh)).length

/-- Model of `set(normalize_text(s).split())` as a duplicate-free list. -/
def wordSet (s : String) : List String :=
  ((words (normalize_text s).data).map (fun w => String.mk w)).dedup

/-- Model of `BenchmarkEvaluator.evaluate_pertinence`. -/
def evaluate_pertinence (answer question question_type : String) :
    ℚ × PertinenceDetails :=
  let is_ignorance := detect_ignorance answer
  if question_type = "hors_sujet" then
    if is_ignorance then
      (1.0, .reason ("Aveu d" ++ aposS ++
        "ignorance approprié pour question hors sujet"))
    else (0.2, .reason "Réponse donnée pour une question hors sujet")
  else if is_ignorance then
    (0.3, .reason ("Aveu d" ++ aposS ++ "ignorance inapproprié"))
  else if answer = "" || stripLen answer < 10 then
    (0.1, .reason "Réponse trop courte ou vide")
  else
    let question_words := (wordSet question).filter
      (fun w => !stop_words.contains w)
    let answer_words := (wordSet answer).filter
      (fun w => !stop_words.contains w)
    if question_words.isEmpty then
      (0.7, .reason ("Impossible d" ++ aposS ++
        "évaluer (question trop courte)"))
    else
      let overlapW := question_words.filter (fun w => answer_words.contains w)
      let overlap_ratio : ℚ := (overlapW.length : ℚ) / (question_words.length : ℚ)
      let length_score : ℚ := min 1 ((answer.data.length : ℚ) / 100)
      let score : ℚ := max 0.3 (min 1 (0.5 * overlap_ratio + 0.5 * length_score))
      (score, .overlap overlapW (round2 overlap_ratio) answer.data.length)

/-- Detail payload of the hallucination-absence scorer. -/
inductive HallucinationDetails
  | reason (reason : String)
  | heuristic (warnings : List String) (note : String)
deriving DecidableEq

/-- Two decimal digits (`\d{2}`). -/
def matchDigit2 : List Char → Option (List Char × List Char)
  | a :: b :: r => if a.isDigit && b.isDigit then some ([a, b], r) else none
  | _ => none

/-- `[.\s]?\d{2}` with the greedy optional separator. -/
def matchSepPair (l : List Char) : Option (List Char × List Char) :=
  match l with
  | c :: r =>
    if c = '.' || isSpaceCh c then
      match matchDigit2 r with
      | some (m, r2) => some (c :: m, r2)
      | none => matchDigit2 l
    else matchDigit2 l
  | [] => none

/-- Matcher for `\d{2}[.\s]?\d{2}[.\s]?\d{2}[.\s]?\d{2}[.\s]?\d{2}`
(phone-number shape). -/
def matchPhone (l : List Char) : Option (List Char × List Char) :=
  match matchDigit2 l with
  | none => none
  | some (m1, r1) =>
    match matchSepPair r1 with
    | none => none
    | some (m2, r2) =>
      match matchSepPair r2 with
      | none => none
      | some (m3, r3) =>
        match matchSepPair r3 with
        | none => none
        | some (m4, r4) =>
          match matchSepPair r4 with
          | none => none
          | some (m5, r5) => some (m1 ++ m2 ++ m3 ++ m4 ++ m5, r5)

/-- `[a-z]`. -/
def isLowAlpha (c : Char) : Bool := 'a' ≤ c && c ≤ 'z'

/-- Matcher for `www\.[a-z]+\.[a-z]+`. -/
def matchWww : List Char → Option (List Char × List Char)
  | 'w' :: 'w' :: 'w' :: '.' :: r =>
    let r1 := r.takeWhile isLowAlpha
    if r1.isEmpty then none
    else
      match r.dropWhile isLowAlpha with
      | '.' :: r2 =>
        let r3 := r2.takeWhile isLowAlpha
        if r3.isEmpty then none
        else some ('w' :: 'w' :: 'w' :: '.' :: (r1 ++ '.' :: r3),
          r2.dropWhile isLowAlpha)
      | _ => none
  | _ => none

/-- Matcher for `http[s]?://[^\s]+`. -/
def matchHttp : List Char → Option (List Char × List Char)
  | 'h' :: 't' :: 't' :: 'p' :: r =>
    match r with
    | 's' :: ':' :: '/' :: '/' :: r2 =>
      let r3 := r2.takeWhile (fun c => !isSpaceCh c)
      if r3.isEmpty then none
      else some ("https://".data ++ r3, r2.dropWhile (fun c => !isSpaceCh c))
    | ':' :: '/' :: '/' :: r2 =>
      let r3 := r2.takeWhile (fun c => !isSpaceCh c)
      if r3.isEmpty then none
      else some ("http://".data ++ r3, r2.dropWhile (fun c => !isSpaceCh c))
    | _ => none
  | _ => none

/-- Fuelled scan for `re.findall`: try the matcher at every position, skip
past each (always nonempty) match. -/
def findAllAux (matcher : List Char → Option (List Char × List Char)) :
    ℕ → List Char → List (List Char)
  | 0, _ => []
  | _, [] => []
  | fuel + 1, c :: t =>
    match matcher (c :: t) with
    | some (m, r) => m :: findAllAux matcher fuel r
    | none => findAllAux matcher fuel t

/-- Model of `re.findall(pattern, text)` for the suspicious patterns. -/
def findAll (matcher : List Char → Option (List Char × List Char))
    (l : List Char) : List (List Char) :=
  findAllAux matcher l.length l

/-- Model of `BenchmarkEvaluator.evaluate_hallucination`. -/
def evaluate_hallucination (answer expected_summary question_type : String) :
    ℚ × HallucinationDetails :=
  if question_type = "hors_sujet" then
    if detect_ignorance answer then
      (1.0, .reason ("Pas de contenu factuel (aveu d" ++ aposS ++ "ignorance)"))
    else
      (0.3, .reason "Contenu factuel sur question hors sujet = risque hallucination")
  else
    let low := answer.data.map lowerChar
    let expected_norm := normalize_text expected_summary
    let allMatches :=
      findAll matchPhone low ++ findAll matchWww low ++ findAll matchHttp low
    let warnings := (allMatches.filter
      (fun m => !containsSub (normalize_text (String.mk m)).data
        expected_norm.data)).map
      (fun m => "Possible hallucination: " ++ String.mk m)
    let score : ℚ := max 0.3 (0.85 - 0.15 * (warnings.length : ℚ))
    (score, .heuristic warnings
      "Évaluation heuristique - validation manuelle recommandée")

/-- Detail payload of the latency scorer. -/
inductive LatenceDetails
  | reason (reason : String)
  | cat (latency_ms : ℚ) (category : String)
deriving DecidableEq

/-- `LATENCY_THRESHOLDS["excellent"]`. -/
def LATENCY_excellent : ℚ := 500
/-- `LATENCY_THRESHOLDS["bon"]`. -/
def LATENCY_bon : ℚ := 1000
/-- `LATENCY_THRESHOLDS["acceptable"]`. -/
def LATENCY_acceptable : ℚ := 2000

/-- Model of `BenchmarkEvaluator.evaluate_latence`. -/
def evaluate_latence (latency_ms : ℚ) : ℚ × LatenceDetails :=
  if latency_ms ≤ 0 then (0.0, .reason "Latence invalide ou erreur")
  else if latency_ms < LATENCY_excellent then (1.0, .cat latency_ms "excellent")
  else if latency_ms < LATENCY_bon then (0.8, .cat latency_ms "bon")
  else if latency_ms < LATENCY_acceptable then (0.5, .cat latency_ms "acceptable")
  else (0.2, .cat latency_ms "lent")

/-- Detail payload of the ignorance-appropriateness scorer. -/
inductive AveuDetails
  | notApplicable (reason : String)
  | applicable (detected_ignorance : Bool) (reason : String)
deriving DecidableEq

/-- Model of `BenchmarkEvaluator.evaluate_aveu_ignorance`. -/
def evaluate_aveu_ignorance (answer question_type : String) : ℚ × AveuDetails :=
  let is_ignorance := detect_ignorance answer
  if question_type ≠ "hors_sujet" then
    (1.0, .notApplicable "Question dans le périmètre FAQ")
  else if is_ignorance then
    (1.0, .applicable true ("Aveu d" ++ aposS ++ "ignorance correctement détecté"))
  else
    (0.0, .applicable false ("Pas d" ++ aposS ++ "aveu d" ++ aposS ++
      "ignorance pour une question hors sujet"))

/-! ## Data model and per-question evaluator -/

/-- The five criterion weights (`WEIGHTS` module constant). -/
structure Weights where
  exactitude : ℚ
  pertinence : ℚ
  absence_hallucination : ℚ
  latence : ℚ
  aveu_ignorance : ℚ
deriving DecidableEq

/-- The `WEIGHTS` configuration of `evaluate_results_solution.py`. -/
def WEIGHTS : Weights :=
  { exactitude := 0.30, pertinence := 0.20, absence_hallucination := 0.20,
    latence := 0.15, aveu_ignorance := 0.15 }

/-- Sum of the five weights. -/
def Weights.total (w : Weights) : ℚ :=
  w.exactitude + w.pertinence + w.absence_hallucination + w.latence +
    w.aveu_ignorance

/-- One golden-set reference item. -/
structure GoldenItem where
  id : String
  question : String
  expected_keywords : List String
  expected_answer_summary : String
deriving DecidableEq

/-- One benchmark result record (the fields `evaluate_single_result` reads,
with the dictionary `get` defaults already applied). -/
structure BenchmarkRecord where
  question_id : String
  question : String
  question_type : String
  strategy : String
  answer : String
  latency_ms : ℚ
  error : Option String
deriving DecidableEq

/-- The `details` payload of a `QuestionEvaluation`. -/
inductive EvalDetails
  | onError (error : String)
  | full (exactitude : ExactitudeDetails) (pertinence : PertinenceDetails)
      (hallucination : HallucinationDetails) (latence : LatenceDetails)
      (aveu_ignorance : AveuDetails) (answer_preview : String)
deriving DecidableEq

/-- The `QuestionEvaluation` dataclass. -/
structure QuestionEvaluation where
  question_id : String
  question_type : String
  strategy : String
  exactitude_score : ℚ
  pertinence_score : ℚ
  hallucination_score : ℚ
  latence_score : ℚ
  aveu_ignorance_score : ℚ
  score_global : ℚ
  details : EvalDetails
deriving DecidableEq

/-- Python truthiness of `result.get("error")`: present and nonempty. -/
def hasError (r : BenchmarkRecord) : Bool :=
  match r.error with
  | some e => !(e == "")
  | none => false

/-- Model of `golden_index = {q["id"]: q}` followed by `.get(qid)`: a later
item with the same id overrides an earlier one. -/
def goldenLookup (gs : List GoldenItem) (qid : String) : Option GoldenItem :=
  gs.foldl (fun acc g => if g.id == qid then some g else acc) none

/-- `golden.get("expected_keywords", [])` after the index lookup. -/
def keywordsFor (gs : List GoldenItem) (r : BenchmarkRecord) : List String :=
  match goldenLookup gs r.question_id with
  | some g => g.expected_keywords
  | none => []

/-- `golden.get("expected_answer_summary", "")` after the index lookup. -/
def summaryFor (gs : List GoldenItem) (r : BenchmarkRecord) : String :=
  match goldenLookup gs r.question_id with
  | some g => g.expected_answer_summary
  | none => ""

/-- `golden.get("question", result.get("question", ""))` after the index
lookup: a missing golden item falls back to the record's own question. -/
def questionFor (gs : List GoldenItem) (r : BenchmarkRecord) : String :=
  match goldenLookup gs r.question_id with
  | some g => g.question
  | none => r.question

/-- The all-zero evaluation produced for a record carrying an error. -/
def errorEval (r : BenchmarkRecord) : QuestionEvaluation :=
  { question_id := r.question_id, question_type := r.question_type,
    strategy := r.strategy, exactitude_score := 0.0, pertinence_score := 0.0,
    hallucination_score := 0.0, latence_score := 0.0,
    aveu_ignorance_score := 0.0, score_global := 0.0,
    details := .onError (r.error.getD "") }

/-- The non-error body of `evaluate_single_result`: run the five scorers on
the resolved reference data, combine with the weights, round for reporting. -/
def scoreCore (r : BenchmarkRecord) (question : String)
    (expected_keywords : List String) (expected_summary : String) :
    QuestionEvaluation :=
  let exa := evaluate_exactitude r.answer expected_keywords
  let per := evaluate_pertinence r.answer question r.question_type
  let hal := evaluate_hallucination r.answer expected_summary r.question_type
  let lat := evaluate_latence r.latency_ms
  let ave := evaluate_aveu_ignorance r.answer r.question_type
  let score_global := exa.1 * WEIGHTS.exactitude + per.1 * WEIGHTS.pertinence
    + hal.1 * WEIGHTS.absence_hallucination + lat.1 * WEIGHTS.latence
    + ave.1 * WEIGHTS.aveu_ignorance
  { question_id := r.question_id, question_type := r.question_type,
    strategy := r.strategy, exactitude_score := round3 exa.1,
    pertinence_score := round3 per.1, hallucination_score := round3 hal.1,
    latence_score := round3 lat.1, aveu_ignorance_score := round3 ave.1,
    score_global := round3 score_global,
    details := .full exa.2 per.2 hal.2 lat.2 ave.2
      (if r.answer = "" then "" else String.mk (r.answer.data.take 200)) }

/-- Model of `BenchmarkEvaluator.evaluate_single_result`. -/
def evaluate_single_result (gs : List GoldenItem) (r : BenchmarkRecord) :
    QuestionEvaluation :=
  if hasError r then errorEval r
  else scoreCore r (questionFor gs r) (keywordsFor gs r) (summaryFor gs r)

/-- Model of `BenchmarkEvaluator.run_evaluation`. -/
def run_evaluation (gs : List GoldenItem) (rs : List BenchmarkRecord) :
    List QuestionEvaluation :=
  rs.map (evaluate_single_result gs)

/-! ## Aggregation and recommendation -/

/-- One row of the per-strategy score table. -/
structure StrategyScores where
  exactitude : ℚ
  pertinence : ℚ
  absence_hallucination : ℚ
  latence : ℚ
  aveu_ignorance : ℚ
  score_global : ℚ
  nombre_questions : ℕ
deriving DecidableEq

/-- Strategy keys in first-seen order (insertion order of the
`defaultdict`). -/
def strategiesOf (evals : List QuestionEvaluation) : List String :=
  evals.foldl
    (fun acc e => if acc.contains e.strategy then acc else acc ++ [e.strategy])
    []

/-- Aggregate row for one nonempty group of evaluations. -/
def aggFor (evs : List QuestionEvaluation) : StrategyScores :=
  let n : ℚ := evs.length
  { exactitude := round3 ((evs.map (fun e => e.exactitude_score)).sum / n),
    pertinence := round3 ((evs.map (fun e => e.pertinence_score)).sum / n),
    absence_hallucination :=
      round3 ((evs.map (fun e => e.hallucination_score)).sum / n),
    latence := round3 ((evs.map (fun e => e.latence_score)).sum / n),
    aveu_ignorance :=
      round3 ((evs.map (fun e => e.aveu_ignorance_score)).sum / n),
    score_global := round3 ((evs.map (fun e => e.score_global)).sum / n),
    nombre_questions := evs.length }

/-- Model of `BenchmarkEvaluator.generate_strategy_scores`. -/
def generate_strategy_scores (evals : List QuestionEvaluation) :
    List (String × StrategyScores) :=
  (strategiesOf evals).map
    (fun s => (s, aggFor (evals.filter (fun e => e.strategy == s))))

/-- The non-global criteria of a row, in the dictionary's insertion order. -/
def criteriaPairs (sc : StrategyScores) : List (String × ℚ) :=
  [("exactitude", sc.exactitude), ("pertinence", sc.pertinence),
   ("absence_hallucination", sc.absence_hallucination),
   ("latence", sc.latence), ("aveu_ignorance", sc.aveu_ignorance)]

/-- Strengths (value ≥ 0.8) and weaknesses (value < 0.5) of one row. -/
def analysisFor (sc : StrategyScores) : List String × List String :=
  (((criteriaPairs sc).filter (fun p => decide ((0.8 : ℚ) ≤ p.2))).map Prod.fst,
   ((criteriaPairs sc).filter (fun p => decide (p.2 < (0.5 : ℚ)))).map Prod.fst)

/-- Two-decimal rendering of a nonnegative-or-negative rational multiple of
1/100, as in Python `f"{x:.2f}"`. -/
def fmt2n (m : ℕ) : String :=
  toString (m / 100) ++ "." ++
    String.mk [Nat.digitChar (m / 10 % 10), Nat.digitChar (m % 10)]

/-- Python `f"{x:.2f}"`. -/
def fmt2 (x : ℚ) : String :=
  let n := rhe (x * 100)
  if n < 0 then "-" ++ fmt2n (-n).toNat else fmt2n n.toNat

/-- The recommendation object built by `generate_recommendation`. -/
structure Recommendation where
  strategie_recommandee : String
  score : ℚ
  justification : String
  scores_comparatifs : List (String × StrategyScores)
  analyse_par_strategie : List (String × (List String × List String))
deriving DecidableEq

/-- Python `", ".join(...)`. -/
def joinComma (l : List String) : String := String.intercalate ", " l

/-- Model of `BenchmarkEvaluator.generate_recommendation`. The source
returns a bare `{"error": ...}` dictionary when there are no scores and the
full recommendation dictionary otherwise; the two shapes are modelled as the
two constructors of `Except`. -/
def generate_recommendation (evals : List QuestionEvaluation) :
    Except String Recommendation :=
  let scores := generate_strategy_scores evals
  match scores with
  | [] => .error "Aucune évaluation disponible"
  | s0 :: rest =>
    let best := rest.foldl
      (fun b x => if x.2.score_global > b.2.score_global then x else b) s0
    let analysis := (s0 :: rest).map (fun p => (p.1, analysisFor p.2))
    let bestAnalysis := analysisFor best.2
    let parts :=
      ["La stratégie " ++ aposS ++ best.1 ++ aposS ++
        " obtient le meilleur score global (" ++ fmt2 best.2.score_global ++
        ")."]
      ++ (if bestAnalysis.1.isEmpty then [] else
        ["Ses points forts sont : " ++ joinComma bestAnalysis.1 ++ "."])
      ++ (if bestAnalysis.2.isEmpty then [] else
        ["Points d" ++ aposS ++ "amélioration : " ++
          joinComma bestAnalysis.2 ++ "."])
    .ok { strategie_recommandee := best.1, score := best.2.score_global,
          justification := String.intercalate " " parts,
          scores_comparatifs := s0 :: rest,
          analyse_par_strategie := analysis }

/-- Parsed content of the benchmark results file. -/
structure BenchmarkData where
  results : List BenchmarkRecord
deriving DecidableEq

/-- State built by `BenchmarkEvaluator.__init__`. -/
structure EvaluatorState where
  weights : Weights
  benchmark_results : List BenchmarkRecord
  golden_set : List GoldenItem
  evaluations : List QuestionEvaluation
deriving DecidableEq

/-- Model of `BenchmarkEvaluator.__init__`, with file loading replaced by the
parsed data and the module-level `WEIGHTS` configuration made an explicit
parameter. The body stores the data, indexes the golden set and initializes
the evaluation list; it contains no validation of the weight configuration,
so it never fails for weight-related reasons. -/
def evaluatorInit (weights : Weights) (benchmarkData : BenchmarkData)
    (goldenSet : List GoldenItem) : Except String EvaluatorState :=
  .ok { weights := weights, benchmark_results := benchmarkData.results,
        golden_set := goldenSet, evaluations := [] }

/-! ## Claim theorems -/

/-- C6: the text normalizer is idempotent: for every input string,
`normalize_text (normalize_text x) = normalize_text x`. -/
theorem C6_normalize_idempotent (s : String) :
    normalize_text (normalize_text s) = normalize_text s := by
  unfold normalize_text
  have h : (String.mk (normList s.data)).data = normList s.data := rfl
  rw [h, normList_idem]

/-- C2: when the per-strategy score table is empty (no evaluations), the
recommender returns the distinct "Aucune évaluation disponible" error value
instead of a recommendation object. -/
theorem C2_empty_recommendation (evals : List QuestionEvaluation)
    (h : generate_strategy_scores evals = []) :
    generate_recommendation evals = .error "Aucune évaluation disponible" := by
  simp only [generate_recommendation, h]

/-- Witness for C2 at the empty evaluation list. -/
theorem C2_empty_recommendation_witness :
    generate_strategy_scores [] = [] ∧
      generate_recommendation [] = .error "Aucune évaluation disponible" :=
  ⟨rfl, C2_empty_recommendation [] rfl⟩

/-- C3: a record carrying a nonempty error short-circuits to an evaluation
with all five criterion scores and the global score exactly 0, the error
message preserved in the details. -/
theorem C3_error_short_circuit (gs : List GoldenItem) (r : BenchmarkRecord)
    (e : String) (he : r.error = some e) (hne : e ≠ "") :
    evaluate_single_result gs r =
      { question_id := r.question_id, question_type := r.question_type,
        strategy := r.strategy, exactitude_score := 0, pertinence_score := 0,
        hallucination_score := 0, latence_score := 0,
        aveu_ignorance_score := 0, score_global := 0,
        details := .onError e } := by
  have h : hasError r = true := by
    simp [hasError, he, hne]
  simp [evaluate_single_result, h, errorEval, he]
  norm_num

/-- Sample record carrying an error, for the C3 witness. -/
def errRec : BenchmarkRecord :=
  { question_id := "EC001", question := "", question_type := "normal",
    strategy := "strategy_a_llm", answer := "peu importe",
    latency_ms := 100, error := some "Timeout API" }

/-- Witness for C3 at a concrete errored record. -/
theorem C3_error_short_circuit_witness :
    errRec.error = some "Timeout API" ∧ "Timeout API" ≠ "" ∧
      evaluate_single_result [] errRec =
        { question_id := "EC001", question_type := "normal",
          strategy := "strategy_a_llm", exactitude_score := 0,
          pertinence_score := 0, hallucination_score := 0, latence_score := 0,
          aveu_ignorance_score := 0, score_global := 0,
          details := .onError "Timeout API" } :=
  ⟨rfl, by decide, C3_error_short_circuit [] errRec "Timeout API" rfl (by decide)⟩

/-- C5 (amended): the five weights of `WEIGHTS` sum to exactly 1, but
initialization performs no validation of the weight configuration — it
succeeds for every weight configuration, including ones that do not sum
to 1. -/
theorem C5_weights_sum_one_unvalidated :
    WEIGHTS.total = 1 ∧
      ∀ (w : Weights) (d : BenchmarkData) (g : List GoldenItem),
        evaluatorInit w d g = .ok ⟨w, d.results, g, []⟩ :=
  ⟨by norm_num [WEIGHTS, Weights.total], fun _ _ _ => rfl⟩

/-- C5 counterexample: a weight configuration summing to 2 (not 1) is not a
fatal initialization failure — initialization succeeds on it. -/
theorem C5_counterexample :
    Weights.total ⟨1, 1, 0, 0, 0⟩ ≠ 1 ∧
      evaluatorInit ⟨1, 1, 0, 0, 0⟩ ⟨[]⟩ [] =
        .ok ⟨⟨1, 1, 0, 0, 0⟩, [], [], []⟩ := by
  constructor
  · norm_num [Weights.total]
  · rfl

/-- C8: the latency scorer returns 0 for nonpositive latencies, 1 below
500 ms, 0.8 in [500, 1000), 0.5 in [1000, 2000) and 0.2 at or above
2000 ms. -/
theorem C8_latence_thresholds (v : ℚ) :
    (v ≤ 0 → (evaluate_latence v).1 = 0)
    ∧ (0 < v → v < 500 → (evaluate_latence v).1 = 1)
    ∧ (500 ≤ v → v < 1000 → (evaluate_latence v).1 = 0.8)
    ∧ (1000 ≤ v → v < 2000 → (evaluate_latence v).1 = 0.5)
    ∧ (2000 ≤ v → (evaluate_latence v).1 = 0.2) := by
  refine ⟨fun h => ?_, fun h1 h2 => ?_, fun h1 h2 => ?_, fun h1 h2 => ?_,
    fun h => ?_⟩
  · simp [evaluate_latence, h]
    norm_num
  · have hn : ¬v ≤ 0 := not_le.mpr h1
    simp [evaluate_latence, LATENCY_excellent, hn, h2]
    norm_num
  · have hn : ¬v ≤ 0 := not_le.mpr (by linarith)
    have hn2 : ¬v < 500 := not_lt.mpr h1
    simp [evaluate_latence, LATENCY_excellent, LATENCY_bon, hn, hn2, h2]
  · have hn : ¬v ≤ 0 := not_le.mpr (by linarith)
    have hn2 : ¬v < 500 := not_lt.mpr (by linarith)
    have hn3 : ¬v < 1000 := not_lt.mpr h1
    simp [evaluate_latence, LATENCY_excellent, LATENCY_bon,
      LATENCY_acceptable, hn, hn2, hn3, h2]
  · have hn : ¬v ≤ 0 := not_le.mpr (by linarith)
    have hn2 : ¬v < 500 := not_lt.mpr (by linarith)
    have hn3 : ¬v < 1000 := not_lt.mpr (by linarith)
    have hn4 : ¬v < 2000 := not_lt.mpr h
    simp [evaluate_latence, LATENCY_excellent, LATENCY_bon,
      LATENCY_acceptable, hn, hn2, hn3, hn4]

/-- Witness for C8 at the boundary latencies named by the claim. -/
theorem C8_latence_thresholds_witness :
    ((0 : ℚ) ≤ 0 ∧ (evaluate_latence 0).1 = 0)
    ∧ ((evaluate_latence 499).1 = 1)
    ∧ ((evaluate_latence 500).1 = 0.8)
    ∧ ((evaluate_latence 999).1 = 0.8)
    ∧ ((evaluate_latence 1999).1 = 0.5)
    ∧ ((evaluate_latence 2000).1 = 0.2) :=
  ⟨⟨le_refl 0, (C8_latence_thresholds 0).1 (le_refl 0)⟩,
   (C8_latence_thresholds 499).2.1 (by norm_num) (by norm_num),
   (C8_latence_thresholds 500).2.2.1 (by norm_num) (by norm_num),
   (C8_latence_thresholds 999).2.2.1 (by norm_num) (by norm_num),
   (C8_latence_thresholds 1999).2.2.2.1 (by norm_num) (by norm_num),
   (C8_latence_thresholds 2000).2.2.2.2 (by norm_num)⟩

/-- C1: for every record without an attached error, the stored global score
is the single 3-decimal rounding of the weighted sum of the five
full-precision criterion scores, with weights 0.30 / 0.20 / 0.20 / 0.15 /
0.15. -/
theorem C1_global_weighted_sum (gs : List GoldenItem) (r : BenchmarkRecord)
    (h : hasError r = false) :
    (evaluate_single_result gs r).score_global =
      round3 (0.30 * (evaluate_exactitude r.answer (keywordsFor gs r)).1
        + 0.20 * (evaluate_pertinence r.answer (questionFor gs r)
            r.question_type).1
        + 0.20 * (evaluate_hallucination r.answer (summaryFor gs r)
            r.question_type).1
        + 0.15 * (evaluate_latence r.latency_ms).1
        + 0.15 * (evaluate_aveu_ignorance r.answer r.question_type).1) := by
  simp only [evaluate_single_result, h, Bool.false_eq_true, if_false,
    scoreCore, WEIGHTS]
  congr 1
  ring

/-- Golden-set sample used by witnesses. -/
def goldenSample : List GoldenItem :=
  [{ id := "EC001", question := "Comment obtenir un acte de naissance ?",
     expected_keywords := ["service-public.fr", "mairie"],
     expected_answer_summary := "Demande sur service-public.fr ou en mairie." }]

/-- Error-free sample record used by the C1 witness. -/
def okRec : BenchmarkRecord :=
  { question_id := "EC001", question := "",
    question_type := "normal", strategy := "strategy_b_rag",
    answer := "Vous pouvez obtenir votre acte sur service-public.fr ou en mairie.",
    latency_ms := 300, error := none }

/-- Witness for C1 at a concrete error-free record. -/
theorem C1_global_weighted_sum_witness :
    hasError okRec = false ∧
      (evaluate_single_result goldenSample okRec).score_global =
        round3 (0.30 * (evaluate_exactitude okRec.answer
            (keywordsFor goldenSample okRec)).1
          + 0.20 * (evaluate_pertinence okRec.answer
              (questionFor goldenSample okRec) okRec.question_type).1
          + 0.20 * (evaluate_hallucination okRec.answer
              (summaryFor goldenSample okRec) okRec.question_type).1
          + 0.15 * (evaluate_latence okRec.latency_ms).1
          + 0.15 * (evaluate_aveu_ignorance okRec.answer
              okRec.question_type).1) :=
  ⟨rfl, C1_global_weighted_sum goldenSample okRec rfl⟩

/-- Record whose question id is absent from the golden set but which carries
its own question text, used for C4. -/
def c4rec : BenchmarkRecord :=
  { question_id := "ZZZ", question := "inscription",
    question_type := "normal", strategy := "strategy_c_qa",
    answer := "La procedure d inscription se fait en ligne facilement",
    latency_ms := 450, error := none }

/-- C4 counterexample: for a record whose id is missing from the golden set,
the evaluation is NOT the one obtained by treating the question text as
empty — the evaluator falls back to the record's own question field, which
changes the relevance score. -/
theorem C4_counterexample :
    goldenLookup [] c4rec.question_id = none ∧
      ¬(evaluate_single_result [] c4rec = scoreCore c4rec "" [] "") :=
  ⟨rfl, fun h =>
    absurd (congrArg QuestionEvaluation.details h) (by decide)⟩

/-- C4 (amended): when the record's question id is absent from the golden
set, evaluation never fails and proceeds with empty expected keywords and
expected summary, while the question text falls back to the record's own
question field (empty only when the record carries none). -/
theorem C4_missing_golden_falls_back (gs : List GoldenItem)
    (r : BenchmarkRecord) (h : goldenLookup gs r.question_id = none) :
    evaluate_single_result gs r =
      if hasError r then errorEval r else scoreCore r r.question [] "" := by
  simp [evaluate_single_result, questionFor, keywordsFor, summaryFor, h]

/-- Witness for the amended C4 at a concrete record. -/
theorem C4_missing_golden_falls_back_witness :
    goldenLookup [] c4rec.question_id = none ∧
      evaluate_single_result [] c4rec =
        (if hasError c4rec then errorEval c4rec
         else scoreCore c4rec c4rec.question [] "") :=
  ⟨rfl, C4_missing_golden_falls_back [] c4rec rfl⟩

theorem filter_false_of {α : Type} (p : α → Bool) (l : List α)
    (h : ∀ a ∈ l, p a = false) : l.filter p = [] := by
  induction l with
  | nil => rfl
  | cons a t ih =>
    rw [List.filter_cons_of_neg (by simp [h a (List.mem_cons_self a t)]),
      ih (fun b hb => h b (List.mem_cons_of_mem a hb))]

/-- C7: the accuracy scorer returns exactly 1 when no keywords are expected
(whatever the answer), and otherwise exactly (number of keywords whose
normalization occurs in the normalized answer) / (number of keywords); in
particular all-present gives 1 and none-present gives 0. -/
theorem C7_exactitude_score (answer : String) (kws : List String) :
    (kws = [] → (evaluate_exactitude answer kws).1 = 1)
    ∧ (kws ≠ [] → (evaluate_exactitude answer kws).1 =
        ((kws.filter (fun k => containsSub (normalize_text k).data
          (normalize_text answer).data)).length : ℚ) / (kws.length : ℚ))
    ∧ ((∀ k ∈ kws, containsSub (normalize_text k).data
          (normalize_text answer).data = true) →
        (evaluate_exactitude answer kws).1 = 1)
    ∧ ((∀ k ∈ kws, containsSub (normalize_text k).data
          (normalize_text answer).data = false) →
        kws ≠ [] → (evaluate_exactitude answer kws).1 = 0) := by
  refine ⟨fun h => ?_, fun h => ?_, fun hall => ?_, fun hnone hne => ?_⟩
  · subst h
    simp [evaluate_exactitude]
    norm_num
  · cases kws with
    | nil => exact absurd rfl h
    | cons a t => simp [evaluate_exactitude]
  · by_cases h : kws = []
    · subst h
      simp [evaluate_exactitude]
      norm_num
    · cases kws with
      | nil => exact absurd rfl h
      | cons a t =>
        simp only [evaluate_exactitude, List.isEmpty_cons, Bool.false_eq_true,
          if_false]
        rw [filter_true_of _ _ hall]
        exact div_self (Nat.cast_ne_zero.mpr (by simp))
  · cases kws with
    | nil => exact absurd rfl hne
    | cons a t =>
      simp only [evaluate_exactitude, List.isEmpty_cons, Bool.false_eq_true,
        if_false]
      rw [filter_false_of _ _ hnone]
      simp

/-- Witness for C7: two expected keywords, one present. -/
theorem C7_exactitude_score_witness :
    (["mairie", "prefecture"] : List String) ≠ [] ∧
      (evaluate_exactitude "La mairie est ouverte" ["mairie", "prefecture"]).1 =
        (((["mairie", "prefecture"] : List String).filter
          (fun k => containsSub (normalize_text k).data
            (normalize_text "La mairie est ouverte").data)).length : ℚ) /
          ((["mairie", "prefecture"] : List String).length : ℚ) :=
  ⟨by decide,
   (C7_exactitude_score "La mairie est ouverte" ["mairie", "prefecture"]).2.1
     (by decide)⟩

theorem containsSub_nil (hay : List Char) : containsSub [] hay = true := by
  cases hay with
  | nil => rfl
  | cons c t => simp [containsSub, List.isPrefixOf]

/-- C9: in every keyword list, any expected keyword whose normalization is
the empty string is counted as found, whatever the answer (the empty string
occurs in every normalized answer); consequently a nonempty keyword list in
which every keyword normalizes to the empty string scores exactly 1, even
for an empty answer. -/
theorem C9_blank_keywords_found (answer : String) (kws : List String) :
    (∀ k ∈ kws, normalize_text k = "" →
        k ∈ (evaluate_exactitude answer kws).2.foundList)
    ∧ ((∀ k ∈ kws, normalize_text k = "") → kws ≠ [] →
        (evaluate_exactitude answer kws).1 = 1) := by
  constructor
  · intro k hk hnorm
    cases kws with
    | nil => cases hk
    | cons a t =>
      simp only [evaluate_exactitude, List.isEmpty_cons, Bool.false_eq_true,
        if_false, ExactitudeDetails.foundList]
      refine List.mem_filter.mpr ⟨hk, ?_⟩
      rw [hnorm]
      exact containsSub_nil _
  · intro hall hne
    have hc : ∀ k ∈ kws, containsSub (normalize_text k).data
        (normalize_text answer).data = true := by
      intro k hk
      rw [hall k hk]
      exact containsSub_nil _
    cases kws with
    | nil => exact absurd rfl hne
    | cons a t =>
      simp only [evaluate_exactitude, List.isEmpty_cons, Bool.false_eq_true,
        if_false]
      rw [filter_true_of _ _ hc]
      exact div_self (Nat.cast_ne_zero.mpr (by simp))

/-- Witness for C9: the keyword `"!!"` normalizes to the empty string and is
counted as found even against the empty answer, also in a mixed list
alongside a normal keyword; an all-blank list scores 1. -/
theorem C9_blank_keywords_found_witness :
    normalize_text "!!" = "" ∧
      "!!" ∈ (evaluate_exactitude "" ["!!", "mairie"]).2.foundList ∧
      (evaluate_exactitude "" ["!!"]).1 = 1 :=
  ⟨by decide,
   (C9_blank_keywords_found "" ["!!", "mairie"]).1 "!!" (by decide) (by decide),
   (C9_blank_keywords_found "" ["!!"]).2 (by decide) (by decide)⟩

/-- C10: each per-strategy aggregate entry is the 3-decimal rounding of the
arithmetic mean of the (already rounded) scores stored in the group's
QuestionEvaluations, and for error-free records the stored per-question
scores are precisely the 3-decimal roundings of the full-precision criterion
scores — full-precision values are not carried into aggregation. -/
theorem C10_aggregation_of_rounded (evals : List QuestionEvaluation)
    (s : String) (sc : StrategyScores)
    (h : (s, sc) ∈ generate_strategy_scores evals) :
    (sc.exactitude = round3 (((evals.filter (fun e => e.strategy == s)).map
        (fun e => e.exactitude_score)).sum /
        ((evals.filter (fun e => e.strategy == s)).length : ℚ))
     ∧ sc.pertinence = round3 (((evals.filter (fun e => e.strategy == s)).map
        (fun e => e.pertinence_score)).sum /
        ((evals.filter (fun e => e.strategy == s)).length : ℚ))
     ∧ sc.absence_hallucination =
        round3 (((evals.filter (fun e => e.strategy == s)).map
        (fun e => e.hallucination_score)).sum /
        ((evals.filter (fun e => e.strategy == s)).length : ℚ))
     ∧ sc.latence = round3 (((evals.filter (fun e => e.strategy == s)).map
        (fun e => e.latence_score)).sum /
        ((evals.filter (fun e => e.strategy == s)).length : ℚ))
     ∧ sc.aveu_ignorance =
        round3 (((evals.filter (fun e => e.strategy == s)).map
        (fun e => e.aveu_ignorance_score)).sum /
        ((evals.filter (fun e => e.strategy == s)).length : ℚ))
     ∧ sc.score_global = round3 (((evals.filter (fun e => e.strategy == s)).map
        (fun e => e.score_global)).sum /
        ((evals.filter (fun e => e.strategy == s)).length : ℚ)))
    ∧ ∀ (gs : List GoldenItem) (r : BenchmarkRecord), hasError r = false →
        ((evaluate_single_result gs r).exactitude_score =
          round3 (evaluate_exactitude r.answer (keywordsFor gs r)).1
         ∧ (evaluate_single_result gs r).pertinence_score =
          round3 (evaluate_pertinence r.answer (questionFor gs r)
            r.question_type).1
         ∧ (evaluate_single_result gs r).hallucination_score =
          round3 (evaluate_hallucination r.answer (summaryFor gs r)
            r.question_type).1
         ∧ (evaluate_single_result gs r).latence_score =
          round3 (evaluate_latence r.latency_ms).1
         ∧ (evaluate_single_result gs r).aveu_ignorance_score =
          round3 (evaluate_aveu_ignorance r.answer r.question_type).1) := by
  constructor
  · simp only [generate_strategy_scores, List.mem_map] at h
    obtain ⟨s', _, heq⟩ := h
    injection heq with h1 h2
    subst h1
    subst h2
    exact ⟨rfl, rfl, rfl, rfl, rfl, rfl⟩
  · intro gs r hr
    simp only [evaluate_single_result, hr, Bool.false_eq_true, if_false,
      scoreCore]
    exact ⟨trivial, trivial, trivial, trivial, trivial⟩

/-- Sample evaluation used by the C10 witness. -/
def ev0 : QuestionEvaluation :=
  { question_id := "q1", question_type := "normal", strategy := "a",
    exactitude_score := 1, pertinence_score := 0.5,
    hallucination_score := 0.85, latence_score := 1,
    aveu_ignorance_score := 1, score_global := 0.878,
    details := .onError "" }

/-- Witness for C10 at a one-element evaluation list. -/
theorem C10_aggregation_of_rounded_witness :
    (("a", aggFor ([ev0].filter (fun e => e.strategy == "a"))) ∈
        generate_strategy_scores [ev0]) ∧
      (aggFor ([ev0].filter (fun e => e.strategy == "a"))).score_global =
        round3 ((([ev0].filter (fun e => e.strategy == "a")).map
          (fun e => e.score_global)).sum /
          (([ev0].filter (fun e => e.strategy == "a")).length : ℚ)) :=
  ⟨List.mem_singleton.mpr rfl,
   (C10_aggregation_of_rounded [ev0] "a"
     (aggFor ([ev0].filter (fun e => e.strategy == "a")))
     (List.mem_singleton.mpr rfl)).1.2.2.2.2.2⟩

end FaqEval
